import Mathlib

/-!
Shallow embedding of the authentication core of the bee-cli repository:
the pairing request client (src/sources/commands/auth/appPairingRequest.ts),
the credential store (src/sources/secureStore.ts), and the login
orchestrator with its polling loop (the login command source file).

External effects (HTTP responses, the platform secret service, the system
clock, crypto primitives) are modelled as explicit inputs: each operation
takes the outcome of its external calls as arguments and returns its result
together with the updated persistent state and an event trace.
-/

deriving instance DecidableEq for Except

namespace BeeCli

/-- Model of JavaScript `String.prototype.trim`: strip leading and trailing
whitespace (restricted to the ASCII whitespace the claims exercise). -/
def jsTrim (s : String) : String :=
  ⟨((s.data.dropWhile Char.isWhitespace).reverse.dropWhile Char.isWhitespace).reverse⟩

/-- Model of JavaScript `String.prototype.toLowerCase` (ASCII case map). -/
def jsToLower (s : String) : String :=
  ⟨s.data.map Char.toLower⟩

/-- The `Environment` type: the two deployment environments, matching the
keys of `PAIRING_API_URLS` in appPairingRequest.ts. -/
inductive Environment
  | prod
  | staging
deriving DecidableEq, Repr

/-- String form of an environment, as interpolated into storage keys. -/
def envName : Environment → String
  | .prod => "prod"
  | .staging => "staging"

/-! ## JSON values

A minimal model of the JSON values the client inspects.  Property lookup on
an object follows `JSON.parse` semantics (a duplicated key keeps its last
occurrence); string-keyed lookup on any non-object value yields `none`,
mirroring `undefined` in JavaScript. -/

inductive JVal
  | null
  | bool (b : Bool)
  | str (s : String)
  | num (n : Int)
  | arr (elems : List JVal)
  | obj (fields : List (String × JVal))

/-- Property access `v[k]` for a string key: defined on objects (last
occurrence of a duplicated key wins, as in `JSON.parse`), `none` elsewhere. -/
def JVal.get : JVal → String → Option JVal
  | .obj fields, k => (fields.reverse.find? (fun p => p.1 == k)).map Prod.snd
  | _, _ => none

/-- Optional-chained access `data?.[k]`, where `data` may be `null`. -/
def jget (data : Option JVal) (k : String) : Option JVal :=
  data.bind (fun v => v.get k)

/-! ## HTTP responses -/

/-- A fetch `Response` as observed by the pairing client: the HTTP status
and the body (`none` when the body is not valid JSON). -/
structure HttpResponse where
  status : Nat
  body : Option JVal

/-- `response.ok`: status in the 2xx range. -/
def HttpResponse.ok (r : HttpResponse) : Bool :=
  200 ≤ r.status && r.status ≤ 299

/-- `safeJson` (appPairingRequest.ts): the parsed body when it is a truthy
value of object type (JavaScript objects and arrays), otherwise `null`. -/
def safeJson : Option JVal → Option JVal
  | some (.obj fields) => some (.obj fields)
  | some (.arr elems) => some (.arr elems)
  | _ => none

/-! ## The pairing request client (appPairingRequest.ts) -/

/-- The `AppPairingRequest` result union. -/
inductive AppPairingRequest
  | pending (requestId : String) (expiresAt : String)
  | completed (requestId : String) (encryptedToken : String)
  | expired (requestId : String)
deriving DecidableEq, Repr

/-- Errors thrown by `requestAppPairing`, with the message payload the code
puts into the thrown `Error`. -/
inductive ApiError
  | endpointNotFound
  | requestFailed (message : String)
  | malformedResponse
deriving DecidableEq, Repr

/-- `PAIRING_API_URLS` base URL per environment. -/
def PAIRING_API_URLS : Environment → String
  | .prod => "https://auth.beeai-services.com"
  | .staging => "https://public-api.korshaks.people.amazon.dev"

def PAIRING_PATH : String := "/apps/pairing/request"

/-- The outgoing HTTP request `requestAppPairing` issues: POST to the
environment's pairing endpoint with body `{app_id, publicKey}`. -/
structure PairingHttpRequest where
  url : String
  method : String
  app_id : String
  publicKey : String
deriving DecidableEq, Repr

/-- The server-supplied error code of a non-2xx payload:
`typeof errorPayload?.["error"] === "string"` yields the string, else null. -/
def errorCodeOf (payload : Option JVal) : Option String :=
  match jget payload "error" with
  | some (.str s) => some s
  | _ => none

/-- JavaScript truthiness test `!errorCode || errorCode === "Not Found"`
used to pick the endpoint-not-found branch on a 404. -/
def notFoundLike (errorCode : Option String) : Bool :=
  match errorCode with
  | none => true
  | some s => s = "" || s = "Not Found"

/-- The `result?.["encryptedToken"]` extraction of the completed branch:
`result && typeof result === "object"` guards the property access. -/
def encryptedTokenOf (result : Option JVal) : Option JVal :=
  match result with
  | some (.obj fields) => JVal.get (.obj fields) "encryptedToken"
  | _ => none

/-- The `data?.["ok"] !== true` check of the 2xx branch. -/
def isOkTrue (data : Option JVal) : Bool :=
  match jget data "ok" with
  | some (.bool true) => true
  | _ => false

/-- Classification of a 2xx body once `ok: true` has been checked, keyed on
the `status` discriminator (a non-string `status` matches none of the three
comparisons and falls through to the malformed case). -/
def classifyOkBody (data : Option JVal) : Except ApiError AppPairingRequest :=
  match jget data "status" with
  | some (.str s) =>
    if s = "pending" then
      match jget data "requestId", jget data "expiresAt" with
      | some (.str rid), some (.str expAt) => .ok (.pending rid expAt)
      | _, _ => .error .malformedResponse
    else if s = "completed" then
      match jget data "requestId", encryptedTokenOf (jget data "result") with
      | some (.str rid), some (.str ct) => .ok (.completed rid ct)
      | _, _ => .error .malformedResponse
    else if s = "expired" then
      match jget data "requestId" with
      | some (.str rid) => .ok (.expired rid)
      | _ => .error .malformedResponse
    else
      .error .malformedResponse
  | _ => .error .malformedResponse

/-- `requestAppPairing` (appPairingRequest.ts): builds the POST request and
classifies the server's response.  The response is an explicit input; the
returned pair is (the issued HTTP request, the classified outcome). -/
def requestAppPairing (env : Environment) (appId : String) (publicKey : String)
    (response : HttpResponse) :
    PairingHttpRequest × Except ApiError AppPairingRequest :=
  let req : PairingHttpRequest :=
    { url := PAIRING_API_URLS env ++ PAIRING_PATH
      method := "POST"
      app_id := appId
      publicKey := publicKey }
  let result : Except ApiError AppPairingRequest :=
    if response.ok then
      let data := safeJson response.body
      if isOkTrue data then
        classifyOkBody data
      else
        .error .malformedResponse
    else
      let errorCode := errorCodeOf (safeJson response.body)
      if response.status = 404 && notFoundLike errorCode then
        .error .endpointNotFound
      else
        .error (.requestFailed
          (errorCode.getD ("Request failed with status " ++ toString response.status)))
  (req, result)

/-! ## The credential store (secureStore.ts)

The platform secret service (`Bun.secrets`) is modelled as an association
map inside the process-visible `StoreState`, with failure injection: each
public operation takes a `secureErr` argument giving the error message the
next `Bun.secrets` call throws, or `none` when it succeeds.  File-system
reads and writes are modelled as reliable.  `console.error` output is
collected in `notices`. -/

/-- The persisted `PairingState` snapshot of an in-flight pairing attempt. -/
structure PairingState where
  appId : String
  publicKey : String
  secretKey : String
  requestId : String
  pairingUrl : String
  expiresAt : String
deriving DecidableEq, Repr

/-- A `(service, name)` key of the platform secret service. -/
structure SecretsKey where
  service : String
  name : String
deriving DecidableEq, Repr

/-- Association-list lookup (first binding wins; `setAssoc` keeps at most
one binding per key). -/
def getAssoc {κ α : Type} [DecidableEq κ] (l : List (κ × α)) (k : κ) : Option α :=
  (l.find? (fun p => p.1 = k)).map Prod.snd

/-- Association-list update: replaces any existing binding of `k`. -/
def setAssoc {κ α : Type} [DecidableEq κ] (l : List (κ × α)) (k : κ) (v : α) :
    List (κ × α) :=
  (k, v) :: l.filter (fun p => ¬ p.1 = k)

/-- Association-list removal of every binding of `k`. -/
def removeAssoc {κ α : Type} [DecidableEq κ] (l : List (κ × α)) (k : κ) :
    List (κ × α) :=
  l.filter (fun p => ¬ p.1 = k)

/-- The process-visible state of the credential store: the module-level
`useFileFallback` flag, the secret-service contents, the `~/.bee` files
(path to contents), and the diagnostics printed so far. -/
structure StoreState where
  useFileFallback : Bool
  secrets : List (SecretsKey × String)
  files : List (String × String)
  notices : List String
deriving DecidableEq, Repr

def TOKEN_SERVICE : String := "bee-cli"

/-- The home directory, an abstract constant: only the per-environment
suffixes of the derived paths matter to the claims. -/
def homedir : String := "~"

def CONFIG_DIR : String := homedir ++ "/.bee"

def getTokenFilePath (env : Environment) : String :=
  CONFIG_DIR ++ "/token-" ++ envName env

def getPairingFilePath (env : Environment) : String :=
  CONFIG_DIR ++ "/pairing-" ++ envName env ++ ".json"

def tokenKey (env : Environment) : SecretsKey :=
  { service := TOKEN_SERVICE, name := "token:" ++ envName env }

def pairingStateKey (env : Environment) : SecretsKey :=
  { service := TOKEN_SERVICE, name := "pairing:" ++ envName env }

/-- Contiguous-sublist test on character lists. -/
def charsContain (pat : List Char) : List Char → Bool
  | [] => pat.isPrefixOf []
  | c :: rest => pat.isPrefixOf (c :: rest) || charsContain pat rest

/-- Substring test used on lowercased error messages. -/
def containsSub (hay pat : String) : Bool :=
  charsContain pat.data hay.data

/-- The unavailability signatures of `handleKeychainError`. -/
def isKeychainUnavailable (err : String) : Bool :=
  let message := jsToLower err
  containsSub message "libsecret" || containsSub message "keychain" ||
    containsSub message "secret service" || containsSub message "dbus"

def keychainNotice : String :=
  "Keychain not available, using file-based token storage (~/.bee/)"

/-- `handleKeychainError`: on an unavailability signature, switch the
process to the file backend (printing the notice only on the first switch);
otherwise rethrow the error. -/
def handleKeychainError (s : StoreState) (err : String) : Except String StoreState :=
  if isKeychainUnavailable err then
    if s.useFileFallback then
      .ok s
    else
      .ok { s with useFileFallback := true, notices := s.notices ++ [keychainNotice] }
  else
    .error err

/-- `loadTokenFromFile`: read, trim, and treat an empty result as absent. -/
def loadTokenFromFile (env : Environment) (s : StoreState) : Option String :=
  match getAssoc s.files (getTokenFilePath env) with
  | none => none
  | some contents =>
    let value := jsTrim contents
    if value.length > 0 then some value else none

def saveTokenToFile (env : Environment) (token : String) (s : StoreState) : StoreState :=
  { s with files := setAssoc s.files (getTokenFilePath env) token }

def clearTokenFromFile (env : Environment) (s : StoreState) : StoreState :=
  { s with files := removeAssoc s.files (getTokenFilePath env) }

/-- `loadToken`: prefer the secret service (a stored value is trimmed, and
an empty trimmed value is `null`); fall through to the file backend when
the secret is absent, when the secure backend is flagged unavailable, or
after a newly classified unavailability error. -/
def loadToken (env : Environment) (secureErr : Option String) (s : StoreState) :
    Except String (Option String × StoreState) :=
  if s.useFileFallback then
    .ok (loadTokenFromFile env s, s)
  else
    match secureErr with
    | none =>
      match getAssoc s.secrets (tokenKey env) with
      | some value =>
        let trimmed := jsTrim value
        .ok (if trimmed.length > 0 then some trimmed else none, s)
      | none => .ok (loadTokenFromFile env s, s)
    | some err =>
      match handleKeychainError s err with
      | .error e => .error e
      | .ok s1 => .ok (loadTokenFromFile env s1, s1)

/-- `saveToken`: store in the secret service and return, or fall through to
the file backend. -/
def saveToken (env : Environment) (token : String) (secureErr : Option String)
    (s : StoreState) : Except String StoreState :=
  if s.useFileFallback then
    .ok (saveTokenToFile env token s)
  else
    match secureErr with
    | none => .ok { s with secrets := setAssoc s.secrets (tokenKey env) token }
    | some err =>
      match handleKeychainError s err with
      | .error e => .error e
      | .ok s1 => .ok (saveTokenToFile env token s1)

/-- `clearToken`: delete the secret, then always clear the file-based
storage to remove any orphaned credentials. -/
def clearToken (env : Environment) (secureErr : Option String) (s : StoreState) :
    Except String StoreState :=
  if s.useFileFallback then
    .ok (clearTokenFromFile env s)
  else
    match secureErr with
    | none =>
      .ok (clearTokenFromFile env { s with secrets := removeAssoc s.secrets (tokenKey env) })
    | some err =>
      match handleKeychainError s err with
      | .error e => .error e
      | .ok s1 => .ok (clearTokenFromFile env s1)

/-- The value component of `loadToken`, for cross-environment statements. -/
def loadTokenValue (env : Environment) (secureErr : Option String) (s : StoreState) :
    Except String (Option String) :=
  (loadToken env secureErr s).map Prod.fst

/-- Serialization of a `PairingState` (`JSON.stringify`), modelled as an
injective field concatenation; the store only transports it opaquely. -/
def PairingState.serialize (st : PairingState) : String :=
  "\x7b" ++ st.appId ++ "|" ++ st.publicKey ++ "|" ++ st.secretKey ++ "|" ++
    st.requestId ++ "|" ++ st.pairingUrl ++ "|" ++ st.expiresAt ++ "\x7d"

/-- `loadPairingStateFromFile`: parse the file contents, `null` on failure;
`parse` models `JSON.parse` plus the cast to `PairingState`. -/
def loadPairingStateFromFile (env : Environment)
    (parse : String → Option PairingState) (s : StoreState) : Option PairingState :=
  match getAssoc s.files (getPairingFilePath env) with
  | none => none
  | some contents => parse contents

def savePairingStateToFile (env : Environment) (st : PairingState) (s : StoreState) :
    StoreState :=
  { s with files := setAssoc s.files (getPairingFilePath env) st.serialize }

def clearPairingStateFromFile (env : Environment) (s : StoreState) : StoreState :=
  { s with files := removeAssoc s.files (getPairingFilePath env) }

/-- `loadPairingState`: a non-empty secure value is parsed; an absent or
empty one falls through to the file backend. -/
def loadPairingState (env : Environment) (secureErr : Option String)
    (parse : String → Option PairingState) (s : StoreState) :
    Except String (Option PairingState × StoreState) :=
  if s.useFileFallback then
    .ok (loadPairingStateFromFile env parse s, s)
  else
    match secureErr with
    | none =>
      match getAssoc s.secrets (pairingStateKey env) with
      | some value =>
        if (jsTrim value).length > 0 then
          .ok (parse value, s)
        else
          .ok (loadPairingStateFromFile env parse s, s)
      | none => .ok (loadPairingStateFromFile env parse s, s)
    | some err =>
      match handleKeychainError s err with
      | .error e => .error e
      | .ok s1 => .ok (loadPairingStateFromFile env parse s1, s1)

/-- `savePairingState`: store the serialized state in the secret service
and return, or fall through to the file backend. -/
def savePairingState (env : Environment) (st : PairingState) (secureErr : Option String)
    (s : StoreState) : Except String StoreState :=
  if s.useFileFallback then
    .ok (savePairingStateToFile env st s)
  else
    match secureErr with
    | none =>
      .ok { s with secrets := setAssoc s.secrets (pairingStateKey env) st.serialize }
    | some err =>
      match handleKeychainError s err with
      | .error e => .error e
      | .ok s1 => .ok (savePairingStateToFile env st s1)

/-- `clearPairingState`: delete the secret, then always clear the
file-based storage. -/
def clearPairingState (env : Environment) (secureErr : Option String) (s : StoreState) :
    Except String StoreState :=
  if s.useFileFallback then
    .ok (clearPairingStateFromFile env s)
  else
    match secureErr with
    | none =>
      .ok (clearPairingStateFromFile env
        { s with secrets := removeAssoc s.secrets (pairingStateKey env) })
    | some err =>
      match handleKeychainError s err with
      | .error e => .error e
      | .ok s1 => .ok (clearPairingStateFromFile env s1)

/-- The six public credential-store operations, for uniform statements. -/
inductive StoreOp
  | loadTok (env : Environment)
  | saveTok (env : Environment) (token : String)
  | clearTok (env : Environment)
  | loadPairing (env : Environment)
  | savePairing (env : Environment) (st : PairingState)
  | clearPairing (env : Environment)

/-- Result value of a store operation. -/
inductive StoreResult
  | unitRes
  | tokenRes (t : Option String)
  | pairingRes (p : Option PairingState)
deriving DecidableEq

/-- Uniform dispatch of a store operation. -/
def runOp (op : StoreOp) (secureErr : Option String)
    (parse : String → Option PairingState) (s : StoreState) :
    Except String (StoreResult × StoreState) :=
  match op with
  | .loadTok env => (loadToken env secureErr s).map (fun p => (.tokenRes p.1, p.2))
  | .saveTok env token => (saveToken env token secureErr s).map (fun s1 => (.unitRes, s1))
  | .clearTok env => (clearToken env secureErr s).map (fun s1 => (.unitRes, s1))
  | .loadPairing env =>
    (loadPairingState env secureErr parse s).map (fun p => (.pairingRes p.1, p.2))
  | .savePairing env st =>
    (savePairingState env st secureErr s).map (fun s1 => (.unitRes, s1))
  | .clearPairing env => (clearPairingState env secureErr s).map (fun s1 => (.unitRes, s1))

/-! ## The login orchestrator (login command source)

The polling loop and the agent-mode flow.  Wall-clock time is an explicit
`Int` of epoch milliseconds; the k-th pairing poll consumes `pollTime k`
milliseconds and each sleep consumes exactly its duration.  External
outcomes (poll responses, the initial create response, decryption, the
key-pair generation, base64 codecs and `Date.parse`) are fields of a
`FlowWorld`.  Every run returns the outcome, the final persisted pairing
state of the environment, and the trace of observable events. -/

/-- Errors that terminate a login attempt, with the source of each. -/
inductive LoginError
  | api (e : ApiError)
  | decryptFailed (msg : String)
  | pairingExpired
  | loginTimedOut
deriving DecidableEq, Repr

/-- A generated app-pairing key pair (bytes modelled as `List Nat`). -/
structure AppPairingKeyPair where
  publicKeyBase64 : String
  secretKey : List Nat
deriving DecidableEq, Repr

/-- The external world of one agent-mode login attempt. -/
structure FlowWorld where
  parseDate : String → Option Int
  startNow : Int
  pollResponses : Nat → Except ApiError AppPairingRequest
  pollTime : Nat → Nat
  decrypt : List Nat → String → Except String String
  initialResponse : Except ApiError AppPairingRequest
  initialTime : Nat
  keyPair : AppPairingKeyPair
  b64encode : List Nat → String
  b64decode : String → List Nat

/-- Observable events of a login attempt, in order of occurrence. -/
inductive FlowEvent
  | createRequest (appId : String) (publicKey : String)
  | pollRequest (k : Nat) (appId : String) (publicKey : String)
  | sleepEv (ms : Nat)
  | decryptEv (secretKey : List Nat) (ciphertext : String)
  | saveState (st : PairingState)
  | clearState
deriving DecidableEq, Repr

/-- Arguments of `pollForAppToken`. -/
structure PollArgs where
  appId : String
  publicKey : String
  secretKey : List Nat
  expiresAt : String
deriving DecidableEq, Repr

def intervalMs : Nat := 2000

/-- The polling deadline: the parsed `expiresAt`, or now + 5 minutes when
it is `NaN` or non-positive. -/
def pollDeadline (w : FlowWorld) (now : Int) (expiresAt : String) : Int :=
  match w.parseDate expiresAt with
  | none => now + 5 * 60 * 1000
  | some t => if t ≤ 0 then now + 5 * 60 * 1000 else t

/-- The `while (Date.now() < deadline)` loop of `pollForAppToken`, with a
structural fuel parameter; `now` is the clock at the loop guard and `k`
counts the poll requests issued so far.  With fuel of at least
`pollFuel deadline now` the fuel never runs out (each iteration advances
the clock by at least `intervalMs`). -/
def pollLoop (w : FlowWorld) (a : PollArgs) (deadline : Int) :
    Nat → Int → Nat → Except LoginError String × List FlowEvent
  | 0, _, _ => (.error .loginTimedOut, [])
  | fuel + 1, now, k =>
    if now < deadline then
      match w.pollResponses k with
      | .error e => (.error (.api e), [.pollRequest k a.appId a.publicKey])
      | .ok (.completed _ ct) =>
        match w.decrypt a.secretKey ct with
        | .ok token =>
          (.ok token, [.pollRequest k a.appId a.publicKey, .decryptEv a.secretKey ct])
        | .error msg =>
          (.error (.decryptFailed msg),
            [.pollRequest k a.appId a.publicKey, .decryptEv a.secretKey ct])
      | .ok (.expired _) => (.error .pairingExpired, [.pollRequest k a.appId a.publicKey])
      | .ok (.pending _ _) =>
        let r := pollLoop w a deadline fuel
          (now + (w.pollTime k : Int) + (intervalMs : Int)) (k + 1)
        (r.1, .pollRequest k a.appId a.publicKey :: .sleepEv intervalMs :: r.2)
    else
      (.error .loginTimedOut, [])

/-- Fuel sufficient to run the polling loop to its terminal outcome. -/
def pollFuel (deadline now : Int) : Nat :=
  (deadline - now).toNat / intervalMs + 1

/-- `pollForAppToken`: compute the deadline from `expiresAt` (with the
5-minute fallback) and run the polling loop; `now` is `Date.now()` at
entry. -/
def pollForAppToken (w : FlowWorld) (a : PollArgs) (now : Int) :
    Except LoginError String × List FlowEvent :=
  let deadline := pollDeadline w now a.expiresAt
  pollLoop w a deadline (pollFuel deadline now) now 0

/-- Per-environment pairing application identifiers. -/
def getDefaultAppId : Environment → String
  | .staging => "pk5z3uuzjpxj4f7frk6rsq2f"
  | .prod => "ph9fssu1kv1b0hns69fxf7rx"

def buildPairingUrl (requestId : String) : String :=
  "https://bee.computer/connect/" ++ requestId

/-- The fresh-request path of `loginWithAppPairingAgentMode`, entered when
no persisted state exists or the persisted state was just discarded (the
persisted pairing state is empty on entry): generate a key pair, create a
pairing request, and on a pending response persist the `PairingState` and
poll.  On polling success the state is cleared; on a polling error the
`catch` block only rethrows, leaving the saved state persisted. -/
def agentFreshPath (w : FlowWorld) (env : Environment) :
    Except LoginError String × Option PairingState × List FlowEvent :=
  let appId := getDefaultAppId env
  let publicKey := w.keyPair.publicKeyBase64
  let secretKey := w.keyPair.secretKey
  let createEv := FlowEvent.createRequest appId publicKey
  match w.initialResponse with
  | .error e => (.error (.api e), none, [createEv])
  | .ok (.completed _ ct) =>
    match w.decrypt secretKey ct with
    | .ok token => (.ok token, none, [createEv, .decryptEv secretKey ct])
    | .error msg =>
      (.error (.decryptFailed msg), none, [createEv, .decryptEv secretKey ct])
  | .ok (.expired _) => (.error .pairingExpired, none, [createEv])
  | .ok (.pending rid expAt) =>
    let pairingUrl := buildPairingUrl rid
    let st : PairingState :=
      { appId := appId, publicKey := publicKey, secretKey := w.b64encode secretKey,
        requestId := rid, pairingUrl := pairingUrl, expiresAt := expAt }
    let args : PollArgs := ⟨appId, publicKey, secretKey, expAt⟩
    let r := pollForAppToken w args (w.startNow + (w.initialTime : Int))
    match r.1 with
    | .ok token => (.ok token, none, createEv :: .saveState st :: r.2 ++ [.clearState])
    | .error e => (.error e, some st, createEv :: .saveState st :: r.2)

/-- `loginWithAppPairingAgentMode`: `stored` is the persisted
`PairingState` of the environment at entry.  A stored state is expired when
its `expiresAt` parses (is not `NaN`) and `Date.now() >= expiresAtMs`; a
non-expired state is resumed (polled with the stored key material, clearing
the state on either outcome), an expired one is discarded before falling
through to the fresh-request path. -/
def loginWithAppPairingAgentMode (w : FlowWorld) (env : Environment)
    (stored : Option PairingState) :
    Except LoginError String × Option PairingState × List FlowEvent :=
  match stored with
  | some st =>
    let isExpired :=
      match w.parseDate st.expiresAt with
      | none => false
      | some t => decide (t ≤ w.startNow)
    if isExpired then
      let r := agentFreshPath w env
      (r.1, r.2.1, .clearState :: r.2.2)
    else
      let args : PollArgs :=
        ⟨st.appId, st.publicKey, w.b64decode st.secretKey, st.expiresAt⟩
      let r := pollForAppToken w args w.startNow
      match r.1 with
      | .ok token => (.ok token, none, r.2 ++ [.clearState])
      | .error e => (.error e, none, r.2 ++ [.clearState])
  | none => agentFreshPath w env

/-! ## Concrete fixtures used by witnesses and counterexamples -/

/-- A 2xx response carrying a well-formed pending body. -/
def sampleOkPending : HttpResponse :=
  ⟨200, some (.obj [("ok", .bool true), ("status", .str "pending"),
    ("requestId", .str "r1"), ("expiresAt", .str "E")])⟩

/-- A 404 whose body carries the error code string `Not Found`. -/
def sample404NotFound : HttpResponse :=
  ⟨404, some (.obj [("error", .str "Not Found")])⟩

/-- A store in its process-start state. -/
def emptyStore : StoreState := ⟨false, [], [], []⟩

/-- A concrete world: `"E"` parses to epoch millisecond 1000000, the first
poll is pending and the second completed, decryption of `"CT"` with the
session secret key yields `"TOK"`. -/
def sampleWorld : FlowWorld := {
  parseDate := fun s => if s = "E" then some 1000000 else none,
  startNow := 0,
  pollResponses := fun k =>
    if k = 0 then .ok (.pending "r1" "E") else .ok (.completed "r1" "CT"),
  pollTime := fun _ => 0,
  decrypt := fun sk ct =>
    if sk = [1, 2] && ct = "CT" then .ok "TOK" else .error "bad ciphertext",
  initialResponse := .ok (.pending "r1" "E"),
  initialTime := 0,
  keyPair := ⟨"PK", [1, 2]⟩,
  b64encode := fun _ => "SKB64",
  b64decode := fun _ => [1, 2] }

/-- The pairing state the fresh path persists in `sampleWorld`. -/
def sampleSavedState : PairingState :=
  ⟨"ph9fssu1kv1b0hns69fxf7rx", "PK", "SKB64", "r1",
    "https://bee.computer/connect/r1", "E"⟩

/-! ## Helper lemmas -/

theorem find?_filter_ne {κ α : Type} [DecidableEq κ] (l : List (κ × α)) (k k1 : κ)
    (h : k1 ≠ k) :
    (l.filter (fun q => ¬ q.1 = k)).find? (fun q => q.1 = k1) =
      l.find? (fun q => q.1 = k1) := by
  induction l with
  | nil => rfl
  | cons p t ih =>
    simp only [decide_not] at ih ⊢
    by_cases hp1 : p.1 = k1
    · have hpk : ¬ p.1 = k := by rw [hp1]; exact h
      simp [List.filter_cons, List.find?_cons, hp1, hpk, h]
    · by_cases hpk : p.1 = k
      · simpa [List.filter_cons, List.find?_cons, hp1, hpk, Ne.symm h] using ih
      · simpa [List.filter_cons, List.find?_cons, hp1, hpk, Ne.symm h] using ih

theorem find?_filter_self {κ α : Type} [DecidableEq κ] (l : List (κ × α)) (k : κ) :
    (l.filter (fun q => ¬ q.1 = k)).find? (fun q => q.1 = k) = none := by
  induction l with
  | nil => rfl
  | cons p t ih =>
    simp only [decide_not] at ih ⊢
    by_cases hpk : p.1 = k
    · simp [List.filter_cons, hpk, ih]
    · simp [List.filter_cons, List.find?_cons, hpk, ih]

theorem getAssoc_set_self {κ α : Type} [DecidableEq κ] (l : List (κ × α)) (k : κ) (v : α) :
    getAssoc (setAssoc l k v) k = some v := by
  simp [getAssoc, setAssoc, List.find?_cons]

theorem getAssoc_set_ne {κ α : Type} [DecidableEq κ] (l : List (κ × α)) (k k1 : κ) (v : α)
    (h : k1 ≠ k) : getAssoc (setAssoc l k v) k1 = getAssoc l k1 := by
  have hk : (decide (k = k1)) = false := decide_eq_false (Ne.symm h)
  simp only [getAssoc, setAssoc, List.find?, hk]
  rw [find?_filter_ne l k k1 h]

theorem getAssoc_remove_self {κ α : Type} [DecidableEq κ] (l : List (κ × α)) (k : κ) :
    getAssoc (removeAssoc l k) k = none := by
  simp only [getAssoc, removeAssoc]
  rw [find?_filter_self l k]
  rfl

theorem getAssoc_remove_ne {κ α : Type} [DecidableEq κ] (l : List (κ × α)) (k k1 : κ)
    (h : k1 ≠ k) : getAssoc (removeAssoc l k) k1 = getAssoc l k1 := by
  simp only [getAssoc, removeAssoc]
  rw [find?_filter_ne l k k1 h]

theorem pollLoop_succ_eq (w : FlowWorld) (a : PollArgs) (d : Int) (fuel : Nat)
    (now : Int) (k : Nat) :
    pollLoop w a d (fuel + 1) now k =
      if now < d then
        match w.pollResponses k with
        | .error e => (.error (.api e), [.pollRequest k a.appId a.publicKey])
        | .ok (.completed _ ct) =>
          match w.decrypt a.secretKey ct with
          | .ok token =>
            (.ok token, [.pollRequest k a.appId a.publicKey, .decryptEv a.secretKey ct])
          | .error msg =>
            (.error (.decryptFailed msg),
              [.pollRequest k a.appId a.publicKey, .decryptEv a.secretKey ct])
        | .ok (.expired _) => (.error .pairingExpired, [.pollRequest k a.appId a.publicKey])
        | .ok (.pending _ _) =>
          ((pollLoop w a d fuel (now + (w.pollTime k : Int) + (intervalMs : Int)) (k + 1)).1,
            .pollRequest k a.appId a.publicKey :: .sleepEv intervalMs ::
              (pollLoop w a d fuel (now + (w.pollTime k : Int) + (intervalMs : Int)) (k + 1)).2)
      else
        (.error .loginTimedOut, []) := rfl

theorem pollLoop_fuel_succ (w : FlowWorld) (a : PollArgs) (d : Int) :
    ∀ (fuel : Nat) (now : Int) (k : Nat), (d - now).toNat ≤ fuel * intervalMs →
      pollLoop w a d (fuel + 1) now k = pollLoop w a d fuel now k := by
  intro fuel
  induction fuel with
  | zero =>
    intro now k h
    have hnd : ¬ now < d := by
      simp only [intervalMs] at h
      omega
    simp [pollLoop, hnd]
  | succ f ih =>
    intro now k h
    rw [pollLoop_succ_eq w a d (f + 1) now k, pollLoop_succ_eq w a d f now k]
    by_cases hlt : now < d
    · have h2 : (d - (now + (w.pollTime k : Int) + (intervalMs : Int))).toNat
          ≤ f * intervalMs := by
        simp only [intervalMs] at h ⊢
        omega
      simp only [if_pos hlt]
      cases hr : w.pollResponses k with
      | error e => simp only [hr]
      | ok res =>
        cases res with
        | pending rid e2 => simp only [hr, ih _ _ h2]
        | completed rid ct => simp only [hr]
        | expired rid => simp only [hr]
    · simp only [if_neg hlt]

theorem pollLoop_fuel_ge (w : FlowWorld) (a : PollArgs) (d : Int) :
    ∀ (extra fuel : Nat) (now : Int) (k : Nat), (d - now).toNat ≤ fuel * intervalMs →
      pollLoop w a d (fuel + extra) now k = pollLoop w a d fuel now k := by
  intro extra
  induction extra with
  | zero => intro fuel now k _; rfl
  | succ e ih =>
    intro fuel now k h
    have h1 : (d - now).toNat ≤ (fuel + e) * intervalMs := by
      refine h.trans (Nat.mul_le_mul_right _ ?_)
      omega
    calc pollLoop w a d (fuel + (e + 1)) now k
        = pollLoop w a d ((fuel + e) + 1) now k := by ring_nf
      _ = pollLoop w a d (fuel + e) now k := pollLoop_fuel_succ w a d _ now k h1
      _ = pollLoop w a d fuel now k := ih fuel now k h

/-- Every event the polling loop emits is a poll request with the loop's
own app id and public key, a fixed-interval sleep, or a decryption with the
loop's own secret key. -/
theorem pollLoop_events_shape (w : FlowWorld) (a : PollArgs) (d : Int) :
    ∀ (fuel : Nat) (now : Int) (k : Nat) (ev : FlowEvent),
      ev ∈ (pollLoop w a d fuel now k).2 →
      (∃ k2, ev = .pollRequest k2 a.appId a.publicKey) ∨ ev = .sleepEv intervalMs ∨
        (∃ ct, ev = .decryptEv a.secretKey ct) := by
  intro fuel
  induction fuel with
  | zero => intro now k ev hev; simp [pollLoop] at hev
  | succ f ih =>
    intro now k ev hev
    by_cases hlt : now < d
    · simp only [pollLoop, if_pos hlt] at hev
      cases hr : w.pollResponses k with
      | error e =>
        rw [hr] at hev
        simp at hev
        exact .inl ⟨k, hev⟩
      | ok res =>
        cases res with
        | pending rid e2 =>
          rw [hr] at hev
          simp at hev
          rcases hev with h1 | h2 | h3
          · exact .inl ⟨k, h1⟩
          · exact .inr (.inl h2)
          · exact ih _ _ ev h3
        | completed rid ct =>
          cases hd : w.decrypt a.secretKey ct with
          | ok tok =>
            rw [hr] at hev
            simp [hd] at hev
            rcases hev with h1 | h2
            · exact .inl ⟨k, h1⟩
            · exact .inr (.inr ⟨ct, h2⟩)
          | error msg =>
            rw [hr] at hev
            simp [hd] at hev
            rcases hev with h1 | h2
            · exact .inl ⟨k, h1⟩
            · exact .inr (.inr ⟨ct, h2⟩)
        | expired rid =>
          rw [hr] at hev
          simp at hev
          exact .inl ⟨k, hev⟩
    · simp [pollLoop, hlt] at hev

theorem classifyOkBody_pending_iff (data : Option JVal) (rid e : String) :
    classifyOkBody data = .ok (.pending rid e) ↔
      jget data "status" = some (.str "pending") ∧
      jget data "requestId" = some (.str rid) ∧
      jget data "expiresAt" = some (.str e) := by
  constructor
  · intro h
    unfold classifyOkBody at h
    repeat' split at h
    all_goals cases h
    all_goals simp_all
  · rintro ⟨h1, h2, h3⟩
    simp [classifyOkBody, h1, h2, h3]

theorem classifyOkBody_completed_iff (data : Option JVal) (rid ct : String) :
    classifyOkBody data = .ok (.completed rid ct) ↔
      jget data "status" = some (.str "completed") ∧
      jget data "requestId" = some (.str rid) ∧
      encryptedTokenOf (jget data "result") = some (.str ct) := by
  constructor
  · intro h
    unfold classifyOkBody at h
    repeat' split at h
    all_goals cases h
    all_goals simp_all
  · rintro ⟨h1, h2, h3⟩
    simp [classifyOkBody, h1, h2, h3]

theorem classifyOkBody_expired_iff (data : Option JVal) (rid : String) :
    classifyOkBody data = .ok (.expired rid) ↔
      jget data "status" = some (.str "expired") ∧
      jget data "requestId" = some (.str rid) := by
  constructor
  · intro h
    unfold classifyOkBody at h
    repeat' split at h
    all_goals cases h
    all_goals simp_all
  · rintro ⟨h1, h2⟩
    simp [classifyOkBody, h1, h2]

theorem classifyOkBody_error_eq (data : Option JVal) (e : ApiError)
    (h : classifyOkBody data = .error e) : e = .malformedResponse := by
  unfold classifyOkBody at h
  repeat' split at h
  all_goals cases h
  all_goals rfl

theorem notFoundLike_iff (ec : Option String) :
    notFoundLike ec = true ↔ ec = none ∨ ec = some "" ∨ ec = some "Not Found" := by
  cases ec <;> simp [notFoundLike]

theorem requestAppPairing_snd_ok (env : Environment) (appId pk : String)
    (r : HttpResponse) (h : r.ok = true) :
    (requestAppPairing env appId pk r).2 =
      if isOkTrue (safeJson r.body) then classifyOkBody (safeJson r.body)
      else .error .malformedResponse := by
  simp [requestAppPairing, h]

theorem requestAppPairing_snd_notok (env : Environment) (appId pk : String)
    (r : HttpResponse) (h : r.ok = false) :
    (requestAppPairing env appId pk r).2 =
      if r.status = 404 && notFoundLike (errorCodeOf (safeJson r.body))
      then .error .endpointNotFound
      else .error (.requestFailed ((errorCodeOf (safeJson r.body)).getD
        ("Request failed with status " ++ toString r.status))) := by
  simp [requestAppPairing, h]

/-! ## Claim theorems -/

/-- C5 (amended): `requestAppPairing` classifies every server response into
exactly one of: an endpoint-not-found error precisely on HTTP 404 when the
body carries no string error code, an empty one, or exactly "Not Found"; a
request-failed error carrying the server-supplied error code (the bare HTTP
status when no code is supplied) on every other non-2xx response; and, on a
2xx response, a pending/completed/expired value returned exactly when the
body has ok true, the matching status discriminator, a string requestId,
and the status-specific field — every other 2xx body is a
malformed-response error, never a partial result. -/
theorem requestAppPairing_classification (env : Environment) (appId pk : String)
    (r : HttpResponse) :
    (r.ok = false →
      ((requestAppPairing env appId pk r).2 = .error .endpointNotFound ↔
        r.status = 404 ∧
          (errorCodeOf (safeJson r.body) = none ∨
           errorCodeOf (safeJson r.body) = some "" ∨
           errorCodeOf (safeJson r.body) = some "Not Found")) ∧
      (¬ (r.status = 404 ∧
          (errorCodeOf (safeJson r.body) = none ∨
           errorCodeOf (safeJson r.body) = some "" ∨
           errorCodeOf (safeJson r.body) = some "Not Found")) →
        (requestAppPairing env appId pk r).2 =
          .error (.requestFailed ((errorCodeOf (safeJson r.body)).getD
            ("Request failed with status " ++ toString r.status))))) ∧
    (r.ok = true →
      (∀ rid e, (requestAppPairing env appId pk r).2 = .ok (.pending rid e) ↔
        isOkTrue (safeJson r.body) = true ∧
        jget (safeJson r.body) "status" = some (.str "pending") ∧
        jget (safeJson r.body) "requestId" = some (.str rid) ∧
        jget (safeJson r.body) "expiresAt" = some (.str e)) ∧
      (∀ rid ct, (requestAppPairing env appId pk r).2 = .ok (.completed rid ct) ↔
        isOkTrue (safeJson r.body) = true ∧
        jget (safeJson r.body) "status" = some (.str "completed") ∧
        jget (safeJson r.body) "requestId" = some (.str rid) ∧
        encryptedTokenOf (jget (safeJson r.body) "result") = some (.str ct)) ∧
      (∀ rid, (requestAppPairing env appId pk r).2 = .ok (.expired rid) ↔
        isOkTrue (safeJson r.body) = true ∧
        jget (safeJson r.body) "status" = some (.str "expired") ∧
        jget (safeJson r.body) "requestId" = some (.str rid)) ∧
      (∀ e2, (requestAppPairing env appId pk r).2 = .error e2 →
        e2 = .malformedResponse)) := by
  constructor
  · intro hok
    rw [requestAppPairing_snd_notok env appId pk r hok]
    have hcond : (decide (r.status = 404) && notFoundLike (errorCodeOf (safeJson r.body)))
        = true ↔
        (r.status = 404 ∧
          (errorCodeOf (safeJson r.body) = none ∨
           errorCodeOf (safeJson r.body) = some "" ∨
           errorCodeOf (safeJson r.body) = some "Not Found")) := by
      rw [Bool.and_eq_true, decide_eq_true_eq, notFoundLike_iff]
    by_cases hc :
        (decide (r.status = 404) && notFoundLike (errorCodeOf (safeJson r.body))) = true
    · rw [if_pos hc]
      exact ⟨⟨fun _ => hcond.mp hc, fun _ => rfl⟩, fun hn => absurd (hcond.mp hc) hn⟩
    · rw [if_neg hc]
      refine ⟨⟨fun h => ?_, fun hrhs => absurd (hcond.mpr hrhs) hc⟩, fun _ => rfl⟩
      simp at h
  · intro hok
    rw [requestAppPairing_snd_ok env appId pk r hok]
    by_cases hokt : isOkTrue (safeJson r.body) = true
    · rw [if_pos hokt]
      refine ⟨fun rid e => ?_, fun rid ct => ?_, fun rid => ?_,
        fun e2 he => classifyOkBody_error_eq _ _ he⟩
      · rw [classifyOkBody_pending_iff]
        simp [hokt]
      · rw [classifyOkBody_completed_iff]
        simp [hokt]
      · rw [classifyOkBody_expired_iff]
        simp [hokt]
    · rw [if_neg hokt]
      refine ⟨fun rid e => ?_, fun rid ct => ?_, fun rid => ?_, fun e2 he => ?_⟩
      · simp [hokt]
      · simp [hokt]
      · simp [hokt]
      · injection he with h2
        exact h2.symm

/-- C5 witness: a well-formed 2xx pending body is classified as pending. -/
theorem requestAppPairing_classification_witness :
    (requestAppPairing .prod "app" "pk" sampleOkPending).2 = .ok (.pending "r1" "E") :=
  (((requestAppPairing_classification .prod "app" "pk" sampleOkPending).2 rfl).1
    "r1" "E").mpr ⟨rfl, rfl, rfl, rfl⟩

/-- C5 counterexample: a 404 whose body carries the structured error code
"Not Found" is still classified as endpoint-not-found, not as the
request-failed error carrying the server-supplied code that the claim
requires for a 404 with a structured error body. -/
theorem requestAppPairing_notFound404 :
    errorCodeOf (safeJson sample404NotFound.body) = some "Not Found" ∧
    (requestAppPairing .prod "app" "pk" sample404NotFound).2 =
      .error .endpointNotFound ∧
    (requestAppPairing .prod "app" "pk" sample404NotFound).2 ≠
      .error (.requestFailed "Not Found") := by
  refine ⟨rfl, rfl, ?_⟩
  decide

/-- C9 (amended): `requestAppPairing` performs no validation of its
`publicKey` argument: the issued HTTP request always carries the given
app id and public key (even when the key is empty), and the classification
of the response is independent of the key. -/
theorem requestAppPairing_no_validation (env : Environment) (appId pk : String)
    (r : HttpResponse) :
    (requestAppPairing env appId pk r).1 =
      { url := PAIRING_API_URLS env ++ PAIRING_PATH, method := "POST",
        app_id := appId, publicKey := pk } ∧
    (requestAppPairing env appId "" r).2 = (requestAppPairing env appId pk r).2 :=
  ⟨rfl, rfl⟩

/-- C9 counterexample: called with an empty `publicKeyBase64`, the function
issues the HTTP request carrying the empty key and classifies the response
normally — there is no validation error. -/
theorem requestAppPairing_empty_key :
    (requestAppPairing .prod "ph9fssu1kv1b0hns69fxf7rx" "" sampleOkPending).1.publicKey
      = "" ∧
    (requestAppPairing .prod "ph9fssu1kv1b0hns69fxf7rx" "" sampleOkPending).2 =
      .ok (.pending "r1" "E") :=
  ⟨rfl, rfl⟩

theorem tokenKey_ne (env env1 : Environment) (h : env1 ≠ env) :
    tokenKey env1 ≠ tokenKey env := by
  cases env <;> cases env1 <;> first | exact absurd rfl h | decide

theorem tokenFilePath_ne (env env1 : Environment) (h : env1 ≠ env) :
    getTokenFilePath env1 ≠ getTokenFilePath env := by
  cases env <;> cases env1 <;> first | exact absurd rfl h | decide

/-- C4 (amended): for every environment and every nonempty token with no
surrounding whitespace, `saveToken` then `loadToken` returns the identical
token, `clearToken` then `loadToken` returns null, and both operations
leave every other environment's stored token reading unchanged.  (Stated
for runs in which the secret service itself raises no error; tokens with
surrounding whitespace are returned trimmed, see the counterexample.) -/
theorem saveToken_loadToken_clearToken (env env1 : Environment) (t : String)
    (s s1 s2 : StoreState) (ht : jsTrim t = t) (hl : 0 < t.length) :
    (saveToken env t none s = .ok s1 →
      loadToken env none s1 = .ok (some t, s1) ∧
      (env1 ≠ env → loadTokenValue env1 none s1 = loadTokenValue env1 none s)) ∧
    (clearToken env none s = .ok s2 →
      loadToken env none s2 = .ok (none, s2) ∧
      (env1 ≠ env → loadTokenValue env1 none s2 = loadTokenValue env1 none s)) := by
  have htr : 0 < (jsTrim t).length := by rw [ht]; exact hl
  constructor
  · intro hsave
    by_cases hf : s.useFileFallback
    · have hs1 : s1 = saveTokenToFile env t s := by
        simp only [saveToken, if_pos hf, Except.ok.injEq] at hsave
        exact hsave.symm
      subst hs1
      constructor
      · simp [loadToken, saveTokenToFile, hf, loadTokenFromFile, getAssoc_set_self, ht, hl]
      · intro hne
        simp only [loadTokenValue, loadToken, saveTokenToFile, hf, if_pos, loadTokenFromFile,
          getAssoc_set_ne _ _ _ _ (tokenFilePath_ne env env1 hne)]
        cases getAssoc s.files (getTokenFilePath env1) <;> rfl
    · have hs1 : s1 = { s with secrets := setAssoc s.secrets (tokenKey env) t } := by
        simp only [saveToken, if_neg hf, Except.ok.injEq] at hsave
        exact hsave.symm
      subst hs1
      constructor
      · simp [loadToken, hf, getAssoc_set_self, ht, hl]
      · intro hne
        simp only [loadTokenValue, loadToken, hf, if_neg, loadTokenFromFile,
          getAssoc_set_ne _ _ _ _ (tokenKey_ne env env1 hne)]
        cases getAssoc s.secrets (tokenKey env1) with
        | none => cases getAssoc s.files (getTokenFilePath env1) <;> rfl
        | some v => rfl
  · intro hclear
    by_cases hf : s.useFileFallback
    · have hs2 : s2 = clearTokenFromFile env s := by
        simp only [clearToken, if_pos hf, Except.ok.injEq] at hclear
        exact hclear.symm
      subst hs2
      constructor
      · simp [loadToken, clearTokenFromFile, hf, loadTokenFromFile, getAssoc_remove_self]
      · intro hne
        simp only [loadTokenValue, loadToken, clearTokenFromFile, hf, if_pos, loadTokenFromFile,
          getAssoc_remove_ne _ _ _ (tokenFilePath_ne env env1 hne)]
        cases getAssoc s.files (getTokenFilePath env1) <;> rfl
    · have hs2 : s2 =
          clearTokenFromFile env { s with secrets := removeAssoc s.secrets (tokenKey env) } := by
        simp only [clearToken, if_neg hf, Except.ok.injEq] at hclear
        exact hclear.symm
      subst hs2
      constructor
      · simp [loadToken, clearTokenFromFile, hf, loadTokenFromFile,
          getAssoc_remove_self]
      · intro hne
        simp only [loadTokenValue, loadToken, clearTokenFromFile, hf, if_neg, loadTokenFromFile,
          getAssoc_remove_ne _ _ _ (tokenKey_ne env env1 hne),
          getAssoc_remove_ne _ _ _ (tokenFilePath_ne env env1 hne)]
        cases getAssoc s.secrets (tokenKey env1) with
        | none => cases getAssoc s.files (getTokenFilePath env1) <;> rfl
        | some v => rfl

/-- C4 witness: a concrete save/load round trip on the prod environment. -/
theorem saveToken_loadToken_clearToken_witness :
    loadToken .prod none ⟨false, [(tokenKey .prod, "tok")], [], []⟩ =
      .ok (some "tok", ⟨false, [(tokenKey .prod, "tok")], [], []⟩) :=
  ((saveToken_loadToken_clearToken .prod .staging "tok" emptyStore
      ⟨false, [(tokenKey .prod, "tok")], [], []⟩ emptyStore
      (by decide) (by decide)).1 (by decide)).1

/-- C4 counterexample: the stored value is trimmed on load, so a token with
surrounding whitespace does not round-trip identically: saving " x " and
loading returns "x". -/
theorem saveToken_trims_on_load :
    saveToken .prod " x " none emptyStore =
      .ok ⟨false, [(tokenKey .prod, " x ")], [], []⟩ ∧
    loadToken .prod none ⟨false, [(tokenKey .prod, " x ")], [], []⟩ =
      .ok (some "x", ⟨false, [(tokenKey .prod, " x ")], [], []⟩) ∧
    ("x" : String) ≠ " x " := by
  exact ⟨by decide, by decide, by decide⟩

/-- C6: once a secure-backend error matching an unavailability signature
has been observed, the fallback flag is set with the diagnostic notice
appended exactly once; with the flag set, every store operation ignores the
secure backend entirely (its outcome no longer matters), keeps the flag
set, and prints nothing further; and clearToken/clearPairingState remove
the file-backend artifact of the environment whenever they complete. -/
theorem credentialStore_sticky_fallback (op : StoreOp) (err : Option String)
    (parse : String → Option PairingState) (s : StoreState) :
    (s.useFileFallback = true →
      runOp op err parse s = runOp op none parse s ∧
      (∀ r s1, runOp op err parse s = .ok (r, s1) →
        s1.useFileFallback = true ∧ s1.notices = s.notices)) ∧
    (s.useFileFallback = false → ∀ m, err = some m → isKeychainUnavailable m = true →
      ∃ r s1, runOp op err parse s = .ok (r, s1) ∧
        s1.useFileFallback = true ∧
        s1.notices = s.notices ++ [keychainNotice]) ∧
    (∀ env1, op = .clearTok env1 → ∀ r s1, runOp op err parse s = .ok (r, s1) →
      getAssoc s1.files (getTokenFilePath env1) = none) ∧
    (∀ env1, op = .clearPairing env1 → ∀ r s1, runOp op err parse s = .ok (r, s1) →
      getAssoc s1.files (getPairingFilePath env1) = none) := by
  refine ⟨fun hf => ⟨?_, ?_⟩, fun hf m hm hun => ?_, fun env1 hop r s1 hrun => ?_,
    fun env1 hop r s1 hrun => ?_⟩
  · cases op <;> simp [runOp, Except.map, loadToken, saveToken, clearToken, loadPairingState,
      savePairingState, clearPairingState, hf]
  · intro r s1 hrun
    cases op with
    | loadTok env1 =>
      rw [show runOp (.loadTok env1) err parse s
          = .ok (.tokenRes (loadTokenFromFile env1 s), s) from by
        simp [runOp, Except.map, loadToken, hf]] at hrun
      cases hrun
      exact ⟨hf, rfl⟩
    | saveTok env1 t =>
      rw [show runOp (.saveTok env1 t) err parse s
          = .ok (.unitRes, saveTokenToFile env1 t s) from by
        simp [runOp, Except.map, saveToken, hf]] at hrun
      cases hrun
      exact ⟨hf, rfl⟩
    | clearTok env1 =>
      rw [show runOp (.clearTok env1) err parse s
          = .ok (.unitRes, clearTokenFromFile env1 s) from by
        simp [runOp, Except.map, clearToken, hf]] at hrun
      cases hrun
      exact ⟨hf, rfl⟩
    | loadPairing env1 =>
      rw [show runOp (.loadPairing env1) err parse s
          = .ok (.pairingRes (loadPairingStateFromFile env1 parse s), s) from by
        simp [runOp, Except.map, loadPairingState, hf]] at hrun
      cases hrun
      exact ⟨hf, rfl⟩
    | savePairing env1 st =>
      rw [show runOp (.savePairing env1 st) err parse s
          = .ok (.unitRes, savePairingStateToFile env1 st s) from by
        simp [runOp, Except.map, savePairingState, hf]] at hrun
      cases hrun
      exact ⟨hf, rfl⟩
    | clearPairing env1 =>
      rw [show runOp (.clearPairing env1) err parse s
          = .ok (.unitRes, clearPairingStateFromFile env1 s) from by
        simp [runOp, Except.map, clearPairingState, hf]] at hrun
      cases hrun
      exact ⟨hf, rfl⟩
  · subst hm
    have hh : handleKeychainError s m = .ok
        { s with useFileFallback := true, notices := s.notices ++ [keychainNotice] } := by
      simp [handleKeychainError, hun, hf]
    cases op with
    | loadTok env1 =>
      exact ⟨.tokenRes (loadTokenFromFile env1 { s with useFileFallback := true, notices := s.notices ++ [keychainNotice] }), { s with useFileFallback := true, notices := s.notices ++ [keychainNotice] },
        by simp [runOp, Except.map, loadToken, hf, hh], rfl, rfl⟩
    | saveTok env1 t =>
      exact ⟨.unitRes, saveTokenToFile env1 t { s with useFileFallback := true, notices := s.notices ++ [keychainNotice] },
        by simp [runOp, Except.map, saveToken, hf, hh], rfl, rfl⟩
    | clearTok env1 =>
      exact ⟨.unitRes, clearTokenFromFile env1 { s with useFileFallback := true, notices := s.notices ++ [keychainNotice] },
        by simp [runOp, Except.map, clearToken, hf, hh], rfl, rfl⟩
    | loadPairing env1 =>
      exact ⟨.pairingRes (loadPairingStateFromFile env1 parse { s with useFileFallback := true, notices := s.notices ++ [keychainNotice] }), { s with useFileFallback := true, notices := s.notices ++ [keychainNotice] },
        by simp [runOp, Except.map, loadPairingState, hf, hh], rfl, rfl⟩
    | savePairing env1 st =>
      exact ⟨.unitRes, savePairingStateToFile env1 st { s with useFileFallback := true, notices := s.notices ++ [keychainNotice] },
        by simp [runOp, Except.map, savePairingState, hf, hh], rfl, rfl⟩
    | clearPairing env1 =>
      exact ⟨.unitRes, clearPairingStateFromFile env1 { s with useFileFallback := true, notices := s.notices ++ [keychainNotice] },
        by simp [runOp, Except.map, clearPairingState, hf, hh], rfl, rfl⟩
  · subst hop
    by_cases hf : s.useFileFallback
    · rw [show runOp (.clearTok env1) err parse s
          = .ok (.unitRes, clearTokenFromFile env1 s) from by
        simp [runOp, Except.map, clearToken, hf]] at hrun
      cases hrun
      exact getAssoc_remove_self _ _
    · cases err with
      | none =>
        rw [show runOp (.clearTok env1) none parse s = .ok (.unitRes, clearTokenFromFile env1
            { s with secrets := removeAssoc s.secrets (tokenKey env1) }) from by
          simp [runOp, Except.map, clearToken, hf]] at hrun
        cases hrun
        exact getAssoc_remove_self _ _
      | some m =>
        cases hku : isKeychainUnavailable m with
        | true =>
          have hh2 : runOp (.clearTok env1) (some m) parse s
              = .ok (.unitRes, clearTokenFromFile env1
                { s with useFileFallback := true, notices := s.notices ++ [keychainNotice] }) := by
            simp [runOp, Except.map, clearToken, hf, handleKeychainError, hku]
          rw [hh2] at hrun
          cases hrun
          exact getAssoc_remove_self _ _
        | false =>
          rw [show runOp (.clearTok env1) (some m) parse s = .error m from by
            simp [runOp, Except.map, clearToken, hf, handleKeychainError, hku]] at hrun
          cases hrun
  · subst hop
    by_cases hf : s.useFileFallback
    · rw [show runOp (.clearPairing env1) err parse s
          = .ok (.unitRes, clearPairingStateFromFile env1 s) from by
        simp [runOp, Except.map, clearPairingState, hf]] at hrun
      cases hrun
      exact getAssoc_remove_self _ _
    · cases err with
      | none =>
        rw [show runOp (.clearPairing env1) none parse s
            = .ok (.unitRes, clearPairingStateFromFile env1
              { s with secrets := removeAssoc s.secrets (pairingStateKey env1) }) from by
          simp [runOp, Except.map, clearPairingState, hf]] at hrun
        cases hrun
        exact getAssoc_remove_self _ _
      | some m =>
        cases hku : isKeychainUnavailable m with
        | true =>
          have hh2 : runOp (.clearPairing env1) (some m) parse s
              = .ok (.unitRes, clearPairingStateFromFile env1
                { s with useFileFallback := true, notices := s.notices ++ [keychainNotice] }) := by
            simp [runOp, Except.map, clearPairingState, hf, handleKeychainError, hku]
          rw [hh2] at hrun
          cases hrun
          exact getAssoc_remove_self _ _
        | false =>
          rw [show runOp (.clearPairing env1) (some m) parse s = .error m from by
            simp [runOp, Except.map, clearPairingState, hf, handleKeychainError, hku]] at hrun
          cases hrun

/-- C6 witness: a clearToken call in a fresh process hitting a libsecret
failure completes on the file backend, sets the sticky flag, and prints the
notice once. -/
theorem credentialStore_sticky_fallback_witness :
    ∃ r s1, runOp (.clearTok .prod) (some "libsecret could not be loaded")
        (fun _ => none) emptyStore = .ok (r, s1) ∧
      s1.useFileFallback = true ∧
      s1.notices = emptyStore.notices ++ [keychainNotice] :=
  (credentialStore_sticky_fallback (.clearTok .prod)
    (some "libsecret could not be loaded") (fun _ => none) emptyStore).2.1
    rfl "libsecret could not be loaded" rfl (by decide)

/-- C2: `pollForAppToken` computes its deadline from `expiresAt`, falling
back to now + 5 minutes when the parse is NaN or non-positive; it runs the
polling loop with sufficient fuel; at every reachable loop configuration a
completed status returns the decrypted token, an expired status fails with
the pairing-expired error, a pending status sleeps exactly 2000 ms and
retries with the same app id and public key, and a passed deadline fails
with the login-timed-out error; and with a parseable positive `expiresAt`
at or before now the whole call fails immediately with the timeout error,
with no request issued and no sleep. -/
theorem pollForAppToken_spec (w : FlowWorld) (a : PollArgs) (now : Int) :
    ((w.parseDate a.expiresAt = none ∨
        (∃ t, w.parseDate a.expiresAt = some t ∧ t ≤ 0)) →
      pollDeadline w now a.expiresAt = now + 5 * 60 * 1000) ∧
    (∀ t, w.parseDate a.expiresAt = some t → 0 < t →
      pollDeadline w now a.expiresAt = t) ∧
    (pollForAppToken w a now =
      pollLoop w a (pollDeadline w now a.expiresAt)
        (pollFuel (pollDeadline w now a.expiresAt) now) now 0) ∧
    (∀ d now1, (d - now1).toNat ≤ pollFuel d now1 * intervalMs) ∧
    (∀ d fuel now1 k, (d - now1).toNat ≤ fuel * intervalMs →
      (¬ now1 < d → pollLoop w a d fuel now1 k = (.error .loginTimedOut, [])) ∧
      (now1 < d →
        (∀ rid ct tok, w.pollResponses k = .ok (.completed rid ct) →
          w.decrypt a.secretKey ct = .ok tok →
          pollLoop w a d fuel now1 k =
            (.ok tok, [.pollRequest k a.appId a.publicKey, .decryptEv a.secretKey ct])) ∧
        (∀ rid, w.pollResponses k = .ok (.expired rid) →
          pollLoop w a d fuel now1 k =
            (.error .pairingExpired, [.pollRequest k a.appId a.publicKey])) ∧
        (∀ rid e, w.pollResponses k = .ok (.pending rid e) →
          pollLoop w a d fuel now1 k =
            ((pollLoop w a d fuel
                (now1 + (w.pollTime k : Int) + (intervalMs : Int)) (k + 1)).1,
              .pollRequest k a.appId a.publicKey :: .sleepEv intervalMs ::
                (pollLoop w a d fuel
                  (now1 + (w.pollTime k : Int) + (intervalMs : Int)) (k + 1)).2)))) ∧
    (∀ t, w.parseDate a.expiresAt = some t → 0 < t → t ≤ now →
      pollForAppToken w a now = (.error .loginTimedOut, [])) := by
  have hdl : ∀ t, w.parseDate a.expiresAt = some t → 0 < t →
      pollDeadline w now a.expiresAt = t := by
    intro t hp hpos
    simp only [pollDeadline, hp]
    rw [if_neg (by omega : ¬ t ≤ 0)]
  refine ⟨?_, hdl, rfl, ?_, ?_, ?_⟩
  · rintro (hp | ⟨t, hp, ht⟩) <;> simp [pollDeadline, *]
  · intro d now1
    simp only [pollFuel, intervalMs]
    omega
  · intro d fuel now1 k hfuel
    constructor
    · intro hnd
      cases fuel with
      | zero => rfl
      | succ f => rw [pollLoop_succ_eq, if_neg hnd]
    · intro hlt
      have hf1 : fuel ≠ 0 := by
        intro h0
        subst h0
        simp only [intervalMs] at hfuel
        omega
      obtain ⟨f, rfl⟩ : ∃ f, fuel = f + 1 := ⟨fuel - 1, by omega⟩
      have h2 : (d - (now1 + (w.pollTime k : Int) + (intervalMs : Int))).toNat
          ≤ f * intervalMs := by
        simp only [intervalMs] at hfuel ⊢
        omega
      refine ⟨fun rid ct tok hr hd => ?_, fun rid hr => ?_, fun rid e hr => ?_⟩
      · rw [pollLoop_succ_eq, if_pos hlt]
        simp only [hr, hd]
      · rw [pollLoop_succ_eq, if_pos hlt]
        simp only [hr]
      · conv_lhs => rw [pollLoop_succ_eq, if_pos hlt]
        simp only [hr]
        rw [pollLoop_fuel_succ w a d f _ (k + 1) h2]
  · intro t hp hpos hle
    have hd := hdl t hp hpos
    show pollLoop w a (pollDeadline w now a.expiresAt)
      (pollFuel (pollDeadline w now a.expiresAt) now) now 0 = _
    rw [hd]
    show pollLoop w a t ((t - now).toNat / intervalMs + 1) now 0 = _
    rw [pollLoop_succ_eq, if_neg (by omega : ¬ now < t)]

/-- C2 witness: with `"E"` parsing to a positive instant at or before the
current clock, polling fails immediately with no events. -/
theorem pollForAppToken_spec_witness :
    pollForAppToken sampleWorld ⟨"app", "PK", [1, 2], "E"⟩ 2000000 =
      (.error .loginTimedOut, []) :=
  (pollForAppToken_spec sampleWorld ⟨"app", "PK", [1, 2], "E"⟩ 2000000).2.2.2.2.2
    1000000 (by decide) (by decide) (by decide)

/-- C7: during polling, only the pending status causes another iteration:
an error from `requestAppPairing` propagates immediately out of the loop
with no retry and no sleep, and a decryption failure after a completed
status likewise propagates immediately and is never retried — in both
cases the emitted trace holds exactly one poll request and no sleep. -/
theorem pollForAppToken_error_propagation (w : FlowWorld) (a : PollArgs) :
    ∀ d fuel now k, (d - now).toNat ≤ fuel * intervalMs → now < d →
      (∀ e, w.pollResponses k = .error e →
        pollLoop w a d fuel now k =
          (.error (.api e), [.pollRequest k a.appId a.publicKey])) ∧
      (∀ rid ct msg, w.pollResponses k = .ok (.completed rid ct) →
        w.decrypt a.secretKey ct = .error msg →
        pollLoop w a d fuel now k =
          (.error (.decryptFailed msg),
            [.pollRequest k a.appId a.publicKey, .decryptEv a.secretKey ct])) := by
  intro d fuel now k hfuel hlt
  have hf1 : fuel ≠ 0 := by
    intro h0
    subst h0
    simp only [intervalMs] at hfuel
    omega
  obtain ⟨f, rfl⟩ : ∃ f, fuel = f + 1 := ⟨fuel - 1, by omega⟩
  refine ⟨fun e hr => ?_, fun rid ct msg hr hd => ?_⟩
  · rw [pollLoop_succ_eq, if_pos hlt]
    simp only [hr]
  · rw [pollLoop_succ_eq, if_pos hlt]
    simp only [hr, hd]

/-- C7 witness: a request error on the first poll aborts immediately with a
single-request trace. -/
theorem pollForAppToken_error_propagation_witness :
    pollLoop { sampleWorld with pollResponses := fun _ => .error (.requestFailed "boom") }
        ⟨"app", "PK", [1, 2], "E"⟩ 1000000 501 0 0 =
      (.error (.api (.requestFailed "boom")), [.pollRequest 0 "app" "PK"]) :=
  (pollForAppToken_error_propagation
    { sampleWorld with pollResponses := fun _ => .error (.requestFailed "boom") }
    ⟨"app", "PK", [1, 2], "E"⟩ 1000000 501 0 0 (by decide) (by decide)).1
    (.requestFailed "boom") rfl

theorem pollForAppToken_events_shape (w : FlowWorld) (a : PollArgs) (now : Int)
    (ev : FlowEvent) (hev : ev ∈ (pollForAppToken w a now).2) :
    (∃ k2, ev = .pollRequest k2 a.appId a.publicKey) ∨ ev = .sleepEv intervalMs ∨
      (∃ ct, ev = .decryptEv a.secretKey ct) :=
  pollLoop_events_shape w a _ _ _ _ ev hev

theorem agentMode_resume_eq (w : FlowWorld) (env : Environment) (st : PairingState)
    (hnotexp : (match w.parseDate st.expiresAt with
      | none => false
      | some t => decide (t ≤ w.startNow)) = false) :
    loginWithAppPairingAgentMode w env (some st) =
      ((pollForAppToken w ⟨st.appId, st.publicKey, w.b64decode st.secretKey,
          st.expiresAt⟩ w.startNow).1,
        none,
        (pollForAppToken w ⟨st.appId, st.publicKey, w.b64decode st.secretKey,
          st.expiresAt⟩ w.startNow).2 ++ [.clearState]) := by
  simp only [loginWithAppPairingAgentMode, hnotexp, Bool.false_eq_true, if_false]
  cases hr : (pollForAppToken w ⟨st.appId, st.publicKey, w.b64decode st.secretKey,
      st.expiresAt⟩ w.startNow).1 <;> simp [hr]

theorem agentMode_discard_eq (w : FlowWorld) (env : Environment) (st : PairingState)
    (hexp : (match w.parseDate st.expiresAt with
      | none => false
      | some t => decide (t ≤ w.startNow)) = true) :
    loginWithAppPairingAgentMode w env (some st) =
      ((agentFreshPath w env).1, (agentFreshPath w env).2.1,
        .clearState :: (agentFreshPath w env).2.2) := by
  simp only [loginWithAppPairingAgentMode, hexp, if_true]

theorem agentFreshPath_pending_ok (w : FlowWorld) (env : Environment)
    (rid e2 tok : String)
    (hinit : w.initialResponse = .ok (.pending rid e2))
    (hpoll : (pollForAppToken w ⟨getDefaultAppId env, w.keyPair.publicKeyBase64,
        w.keyPair.secretKey, e2⟩ (w.startNow + (w.initialTime : Int))).1 = .ok tok) :
    agentFreshPath w env =
      (.ok tok, none,
        .createRequest (getDefaultAppId env) w.keyPair.publicKeyBase64 ::
          .saveState ⟨getDefaultAppId env, w.keyPair.publicKeyBase64,
            w.b64encode w.keyPair.secretKey, rid, buildPairingUrl rid, e2⟩ ::
          (pollForAppToken w ⟨getDefaultAppId env, w.keyPair.publicKeyBase64,
            w.keyPair.secretKey, e2⟩ (w.startNow + (w.initialTime : Int))).2
            ++ [.clearState]) := by
  simp [agentFreshPath, hinit, hpoll]

theorem agentFreshPath_pending_error (w : FlowWorld) (env : Environment)
    (rid e2 : String) (e3 : LoginError)
    (hinit : w.initialResponse = .ok (.pending rid e2))
    (hpoll : (pollForAppToken w ⟨getDefaultAppId env, w.keyPair.publicKeyBase64,
        w.keyPair.secretKey, e2⟩ (w.startNow + (w.initialTime : Int))).1 = .error e3) :
    agentFreshPath w env =
      (.error e3,
        some ⟨getDefaultAppId env, w.keyPair.publicKeyBase64,
          w.b64encode w.keyPair.secretKey, rid, buildPairingUrl rid, e2⟩,
        .createRequest (getDefaultAppId env) w.keyPair.publicKeyBase64 ::
          .saveState ⟨getDefaultAppId env, w.keyPair.publicKeyBase64,
            w.b64encode w.keyPair.secretKey, rid, buildPairingUrl rid, e2⟩ ::
          (pollForAppToken w ⟨getDefaultAppId env, w.keyPair.publicKeyBase64,
            w.keyPair.secretKey, e2⟩ (w.startNow + (w.initialTime : Int))).2) := by
  simp [agentFreshPath, hinit, hpoll]

/-- C3: with a stored state whose `expiresAt` parses strictly in the
future, the flow resumes: it equals a poll with the stored app id, public
key, decoded secret key and stored expiry, with the state cleared at the
end, and the trace holds no create-request and no save-state event.  With a
stored state whose parsed `expiresAt` is at or before now, the state is
discarded first and the fresh path runs; when the fresh request is pending,
the trace is: discard, create, persist, then the polling events. -/
theorem agentMode_resume_vs_recreate (w : FlowWorld) (env : Environment)
    (st : PairingState) (t : Int) (hp : w.parseDate st.expiresAt = some t) :
    (w.startNow < t →
      loginWithAppPairingAgentMode w env (some st) =
        ((pollForAppToken w ⟨st.appId, st.publicKey, w.b64decode st.secretKey,
            st.expiresAt⟩ w.startNow).1,
          none,
          (pollForAppToken w ⟨st.appId, st.publicKey, w.b64decode st.secretKey,
            st.expiresAt⟩ w.startNow).2 ++ [.clearState]) ∧
      (∀ aId pk2, .createRequest aId pk2 ∉
        (loginWithAppPairingAgentMode w env (some st)).2.2) ∧
      (∀ st2, .saveState st2 ∉
        (loginWithAppPairingAgentMode w env (some st)).2.2)) ∧
    (t ≤ w.startNow →
      loginWithAppPairingAgentMode w env (some st) =
        ((agentFreshPath w env).1, (agentFreshPath w env).2.1,
          .clearState :: (agentFreshPath w env).2.2) ∧
      (∀ rid e2 : String, w.initialResponse = .ok (.pending rid e2) →
        ∃ tail, (loginWithAppPairingAgentMode w env (some st)).2.2 =
          .clearState :: .createRequest (getDefaultAppId env) w.keyPair.publicKeyBase64 ::
            .saveState ⟨getDefaultAppId env, w.keyPair.publicKeyBase64,
              w.b64encode w.keyPair.secretKey, rid, buildPairingUrl rid, e2⟩ ::
            ((pollForAppToken w ⟨getDefaultAppId env, w.keyPair.publicKeyBase64,
                w.keyPair.secretKey, e2⟩ (w.startNow + (w.initialTime : Int))).2
              ++ tail))) := by
  constructor
  · intro hlt
    have hne : (match w.parseDate st.expiresAt with
        | none => false
        | some t2 => decide (t2 ≤ w.startNow)) = false := by
      simp only [hp]
      exact decide_eq_false (by omega)
    have heq := agentMode_resume_eq w env st hne
    refine ⟨heq, fun aId pk2 hmem => ?_, fun st2 hmem => ?_⟩
    · rw [heq] at hmem
      rcases List.mem_append.mp hmem with h1 | h1
      · rcases pollForAppToken_events_shape w _ _ _ h1 with ⟨k2, h⟩ | h | ⟨ct, h⟩ <;>
          cases h
      · simp at h1
    · rw [heq] at hmem
      rcases List.mem_append.mp hmem with h1 | h1
      · rcases pollForAppToken_events_shape w _ _ _ h1 with ⟨k2, h⟩ | h | ⟨ct, h⟩ <;>
          cases h
      · simp at h1
  · intro hle
    have hexp : (match w.parseDate st.expiresAt with
        | none => false
        | some t2 => decide (t2 ≤ w.startNow)) = true := by
      simp only [hp]
      exact decide_eq_true (by omega)
    have heq := agentMode_discard_eq w env st hexp
    refine ⟨heq, fun rid e2 hinit => ?_⟩
    cases hpoll : (pollForAppToken w ⟨getDefaultAppId env, w.keyPair.publicKeyBase64,
        w.keyPair.secretKey, e2⟩ (w.startNow + (w.initialTime : Int))).1 with
    | ok tok =>
      refine ⟨[.clearState], ?_⟩
      rw [heq, agentFreshPath_pending_ok w env rid e2 tok hinit hpoll]
      rfl
    | error e3 =>
      refine ⟨[], ?_⟩
      rw [heq, agentFreshPath_pending_error w env rid e2 e3 hinit hpoll]
      simp

/-- C3 witness: a stored state with a future expiry resumes into a poll
with the stored key material and ends with a single state clear. -/
theorem agentMode_resume_vs_recreate_witness :
    loginWithAppPairingAgentMode sampleWorld .prod
        (some ⟨"app", "PK", "SKB64", "r1", "u", "E"⟩) =
      ((pollForAppToken sampleWorld ⟨"app", "PK", [1, 2], "E"⟩ 0).1, none,
        (pollForAppToken sampleWorld ⟨"app", "PK", [1, 2], "E"⟩ 0).2
          ++ [.clearState]) :=
  ((agentMode_resume_vs_recreate sampleWorld .prod
      ⟨"app", "PK", "SKB64", "r1", "u", "E"⟩ 1000000 (by decide)).1 (by decide)).1

/-- C10: a stored state whose `expiresAt` does not parse is treated as not
expired: the flow resumes it (no create-request event occurs) and the
polling deadline falls back to now + 5 minutes. -/
theorem agentMode_nan_expiry_resumes (w : FlowWorld) (env : Environment)
    (st : PairingState) (hp : w.parseDate st.expiresAt = none) :
    loginWithAppPairingAgentMode w env (some st) =
      ((pollForAppToken w ⟨st.appId, st.publicKey, w.b64decode st.secretKey,
          st.expiresAt⟩ w.startNow).1,
        none,
        (pollForAppToken w ⟨st.appId, st.publicKey, w.b64decode st.secretKey,
          st.expiresAt⟩ w.startNow).2 ++ [.clearState]) ∧
    (∀ aId pk2, .createRequest aId pk2 ∉
      (loginWithAppPairingAgentMode w env (some st)).2.2) ∧
    pollDeadline w w.startNow st.expiresAt = w.startNow + 5 * 60 * 1000 := by
  have hne : (match w.parseDate st.expiresAt with
      | none => false
      | some t2 => decide (t2 ≤ w.startNow)) = false := by
    simp only [hp]
  have heq := agentMode_resume_eq w env st hne
  refine ⟨heq, fun aId pk2 hmem => ?_, by simp [pollDeadline, hp]⟩
  rw [heq] at hmem
  rcases List.mem_append.mp hmem with h1 | h1
  · rcases pollForAppToken_events_shape w _ _ _ h1 with ⟨k2, h⟩ | h | ⟨ct, h⟩ <;> cases h
  · simp at h1

/-- C10 witness: an unparseable stored expiry is resumed. -/
theorem agentMode_nan_expiry_resumes_witness :
    loginWithAppPairingAgentMode sampleWorld .prod
        (some ⟨"app", "PK", "SKB64", "r1", "u", "X"⟩) =
      ((pollForAppToken sampleWorld ⟨"app", "PK", [1, 2], "X"⟩ 0).1, none,
        (pollForAppToken sampleWorld ⟨"app", "PK", [1, 2], "X"⟩ 0).2
          ++ [.clearState]) :=
  (agentMode_nan_expiry_resumes sampleWorld .prod
    ⟨"app", "PK", "SKB64", "r1", "u", "X"⟩ (by decide)).1

/-- C8: on the fresh-request path (no stored state, or a stored state whose
parsed expiry has passed), a pending create response makes the flow emit
the create-request event and then persist the complete `PairingState`
(app id, public key, serialized secret key, request id, pairing URL,
expiry) strictly before any polling event: every poll request in the trace
occurs after the save-state event. -/
theorem agentMode_persists_before_polling (w : FlowWorld) (env : Environment)
    (stored : Option PairingState) (rid e2 : String)
    (hinit : w.initialResponse = .ok (.pending rid e2))
    (hfresh : stored = none ∨ ∃ st t, stored = some st ∧
      w.parseDate st.expiresAt = some t ∧ t ≤ w.startNow) :
    ∃ pre tail,
      (loginWithAppPairingAgentMode w env stored).2.2 =
        pre ++ .createRequest (getDefaultAppId env) w.keyPair.publicKeyBase64 ::
          .saveState ⟨getDefaultAppId env, w.keyPair.publicKeyBase64,
            w.b64encode w.keyPair.secretKey, rid, buildPairingUrl rid, e2⟩ ::
          ((pollForAppToken w ⟨getDefaultAppId env, w.keyPair.publicKeyBase64,
              w.keyPair.secretKey, e2⟩ (w.startNow + (w.initialTime : Int))).2
            ++ tail) ∧
      (∀ k aId pk2, .pollRequest k aId pk2 ∉ pre) ∧
      (∀ k aId pk2, .pollRequest k aId pk2 ∉ tail) := by
  have hbody : ∀ pre2 : List FlowEvent, (∀ k aId pk2, .pollRequest k aId pk2 ∉ pre2) →
      ∃ pre tail,
        pre2 ++ (agentFreshPath w env).2.2 =
          pre ++ .createRequest (getDefaultAppId env) w.keyPair.publicKeyBase64 ::
            .saveState ⟨getDefaultAppId env, w.keyPair.publicKeyBase64,
              w.b64encode w.keyPair.secretKey, rid, buildPairingUrl rid, e2⟩ ::
            ((pollForAppToken w ⟨getDefaultAppId env, w.keyPair.publicKeyBase64,
                w.keyPair.secretKey, e2⟩ (w.startNow + (w.initialTime : Int))).2
              ++ tail) ∧
        (∀ k aId pk2, .pollRequest k aId pk2 ∉ pre) ∧
        (∀ k aId pk2, .pollRequest k aId pk2 ∉ tail) := by
    intro pre2 hpre2
    cases hpoll : (pollForAppToken w ⟨getDefaultAppId env, w.keyPair.publicKeyBase64,
        w.keyPair.secretKey, e2⟩ (w.startNow + (w.initialTime : Int))).1 with
    | ok tok =>
      refine ⟨pre2, [.clearState], ?_, hpre2, by intro k aId pk2; simp⟩
      rw [agentFreshPath_pending_ok w env rid e2 tok hinit hpoll]
      rfl
    | error e3 =>
      refine ⟨pre2, [], ?_, hpre2, by intro k aId pk2; simp⟩
      rw [agentFreshPath_pending_error w env rid e2 e3 hinit hpoll]
      simp
  rcases hfresh with hn | ⟨st, t, hsome, hp, hle⟩
  · subst hn
    have h0 := hbody [] (by intro k aId pk2; simp)
    simpa using h0
  · subst hsome
    have hexp : (match w.parseDate st.expiresAt with
        | none => false
        | some t2 => decide (t2 ≤ w.startNow)) = true := by
      simp only [hp]
      exact decide_eq_true (by omega)
    rw [agentMode_discard_eq w env st hexp]
    have h0 := hbody [.clearState] (by intro k aId pk2; simp)
    simpa using h0

/-- C8 witness: in a fresh run, the complete state is saved right after the
create request and before every polling event. -/
theorem agentMode_persists_before_polling_witness :
    ∃ pre tail,
      (loginWithAppPairingAgentMode sampleWorld .prod none).2.2 =
        pre ++ .createRequest (getDefaultAppId .prod) sampleWorld.keyPair.publicKeyBase64 ::
          .saveState ⟨getDefaultAppId .prod, sampleWorld.keyPair.publicKeyBase64,
            sampleWorld.b64encode sampleWorld.keyPair.secretKey, "r1",
            buildPairingUrl "r1", "E"⟩ ::
          ((pollForAppToken sampleWorld ⟨getDefaultAppId .prod,
              sampleWorld.keyPair.publicKeyBase64, sampleWorld.keyPair.secretKey, "E"⟩
              (sampleWorld.startNow + (sampleWorld.initialTime : Int))).2 ++ tail) ∧
      (∀ k aId pk2, .pollRequest k aId pk2 ∉ pre) ∧
      (∀ k aId pk2, .pollRequest k aId pk2 ∉ tail) :=
  agentMode_persists_before_polling sampleWorld .prod none "r1" "E" rfl (.inl rfl)

/-- C1 (corrected): on the resume path every terminal outcome leaves no
persisted state; on the fresh-request path the state persisted before
polling is deleted on success, but an unrecoverable polling error leaves it
persisted (the catch block only rethrows). -/
theorem agentMode_state_cleanup (w : FlowWorld) (env : Environment)
    (st : PairingState) (rid e2 : String) :
    ((w.parseDate st.expiresAt = none ∨
        (∃ t, w.parseDate st.expiresAt = some t ∧ w.startNow < t)) →
      (loginWithAppPairingAgentMode w env (some st)).2.1 = none) ∧
    (w.initialResponse = .ok (.pending rid e2) →
      (∀ tok, (pollForAppToken w ⟨getDefaultAppId env, w.keyPair.publicKeyBase64,
          w.keyPair.secretKey, e2⟩ (w.startNow + (w.initialTime : Int))).1 = .ok tok →
        (loginWithAppPairingAgentMode w env none).2.1 = none) ∧
      (∀ e3, (pollForAppToken w ⟨getDefaultAppId env, w.keyPair.publicKeyBase64,
          w.keyPair.secretKey, e2⟩ (w.startNow + (w.initialTime : Int))).1 = .error e3 →
        (loginWithAppPairingAgentMode w env none).2.1 =
          some ⟨getDefaultAppId env, w.keyPair.publicKeyBase64,
            w.b64encode w.keyPair.secretKey, rid, buildPairingUrl rid, e2⟩)) := by
  constructor
  · intro hres
    have hne : (match w.parseDate st.expiresAt with
        | none => false
        | some t2 => decide (t2 ≤ w.startNow)) = false := by
      rcases hres with hp | ⟨t, hp, hlt⟩
      · simp only [hp]
      · simp only [hp]
        exact decide_eq_false (by omega)
    rw [agentMode_resume_eq w env st hne]
  · intro hinit
    refine ⟨fun tok hpoll => ?_, fun e3 hpoll => ?_⟩
    · show (agentFreshPath w env).2.1 = none
      rw [agentFreshPath_pending_ok w env rid e2 tok hinit hpoll]
    · show (agentFreshPath w env).2.1 = _
      rw [agentFreshPath_pending_error w env rid e2 e3 hinit hpoll]

/-- C1 witness: a resumed attempt (future expiry) whose poll succeeds
leaves no persisted state. -/
theorem agentMode_state_cleanup_witness :
    (loginWithAppPairingAgentMode sampleWorld .prod
      (some ⟨"app", "PK", "SKB64", "r1", "u", "E"⟩)).2.1 = none :=
  (agentMode_state_cleanup sampleWorld .prod
    ⟨"app", "PK", "SKB64", "r1", "u", "E"⟩ "r1" "E").1
    (.inr ⟨1000000, by decide, by decide⟩)

/-- C1 counterexample: with no stored state, a fresh pending request whose
polling ends in the terminal pairing-expired error leaves the persisted
PairingState in place instead of deleting it. -/
theorem agentMode_fresh_error_keeps_state :
    (loginWithAppPairingAgentMode
        { sampleWorld with pollResponses := fun _ => .ok (.expired "r1") }
        .prod none).1 = .error .pairingExpired ∧
    (loginWithAppPairingAgentMode
        { sampleWorld with pollResponses := fun _ => .ok (.expired "r1") }
        .prod none).2.1 = some sampleSavedState ∧
    some sampleSavedState ≠ (none : Option PairingState) :=
  ⟨by decide, by decide, by decide⟩

end BeeCli
